import Mathlib

/-!
Verification of the Cadence storage value migration engine
(`migrations/` and `runtime/interpreter/statictype.go`).

The first part embeds the static type model of
`runtime/interpreter/statictype.go`, the second the static type
migration of `migrations/statictypes/statictype_migration.go`, the
third the traversal engine of the storage migration
(`migrations` package), each as executable Lean definitions.
-/

namespace Cadence

/-- `common.TypeID`: a type identifier string. -/
abbrev TypeID := String

/-- `common.Location`: locations are opaque here; built-in types have a
`nil` location, modelled as `none`. -/
abbrev Location := Option String

/-- `sema.EntitlementSetKind`. -/
inductive EntitlementSetKind where
  | conjunction
  | disjunction
deriving DecidableEq, Repr

/-- `interpreter.PrimitiveStaticType`: the closed enumeration of built-in
primitive kinds. The kinds named in the migration's lookup table appear as
their own constructors; every remaining kind of the (large, closed) Go
enumeration is represented by `other n`. -/
inductive PrimitiveStaticType where
  | publicAccount
  | authAccount
  | authAccountCapabilities
  | publicAccountCapabilities
  | authAccountAccountCapabilities
  | authAccountStorageCapabilities
  | authAccountContracts
  | publicAccountContracts
  | authAccountKeys
  | publicAccountKeys
  | authAccountInbox
  | accountKey
  | account
  | account_Capabilities
  | account_AccountCapabilities
  | account_StorageCapabilities
  | account_Contracts
  | account_Keys
  | account_Inbox
  | never
  | other (n : Nat)
deriving DecidableEq, Repr

/-- `interpreter.InterfaceStaticType` (a value type in Go). -/
structure InterfaceStaticType where
  location : Location
  qualifiedIdentifier : String
deriving DecidableEq, Repr

/-- `interpreter.CompositeStaticType`. -/
structure CompositeStaticType where
  location : Location
  qualifiedIdentifier : String
  typeID : TypeID
deriving DecidableEq, Repr

/-- `interpreter.Authorization`: closed union of `Unauthorized`,
`EntitlementSetAuthorization` (an insertion-ordered, duplicate-free set of
type IDs plus a set kind) and `EntitlementMapAuthorization`. -/
inductive Authorization where
  | unauthorized
  | entitlementSet (entitlements : List TypeID) (setKind : EntitlementSetKind)
  | entitlementMap (typeID : TypeID)
deriving DecidableEq, Repr

/-- `interpreter.StaticType`: the closed union of static type constructors.
`dummy` embeds the test-only `dummyStaticType` wrapper handled by the
migration (a wrapper around a primitive kind usable as a dictionary key).
`function` carries an opaque identifier standing for the
`*sema.FunctionType` payload, which the migration never inspects. -/
inductive StaticType where
  | composite (t : CompositeStaticType)
  | interfaceT (t : InterfaceStaticType)
  | variableSized (type : StaticType)
  | constantSized (type : StaticType) (size : Int)
  | dictionary (keyType : StaticType) (valueType : StaticType)
  | optional (type : StaticType)
  | intersection (types : List InterfaceStaticType) (legacyType : Option StaticType)
  | reference (authorization : Authorization) (referencedType : StaticType)
  | capability (borrowType : Option StaticType)
  | function (sig : Nat)
  | primitive (kind : PrimitiveStaticType)
  | dummy (kind : PrimitiveStaticType)
deriving Repr

/-- Structural (Leibniz) equality test on static types, written by hand
because the nested lists prevent deriving. This is the equality of the
Lean terms themselves; the source's `Equal` methods (which are nominal for
composites and set-based for intersections) are defined separately below. -/
def StaticType.beq : StaticType → StaticType → Bool
  | .composite a, .composite b => a == b
  | .interfaceT a, .interfaceT b => a == b
  | .variableSized a, .variableSized b => a.beq b
  | .constantSized a n, .constantSized b n' => a.beq b && n == n'
  | .dictionary k v, .dictionary k' v' => k.beq k' && v.beq v'
  | .optional a, .optional b => a.beq b
  | .intersection ts lt, .intersection ts' lt' =>
      ts == ts' &&
        (match lt, lt' with
          | none, none => true
          | some a, some b => a.beq b
          | _, _ => false)
  | .reference au a, .reference au' b => au == au' && a.beq b
  | .capability bt, .capability bt' =>
      (match bt, bt' with
        | none, none => true
        | some a, some b => a.beq b
        | _, _ => false)
  | .function s, .function s' => s == s'
  | .primitive k, .primitive k' => k == k'
  | .dummy k, .dummy k' => k == k'
  | _, _ => false

/-- `Authorization.Equal` (statictype.go): `Unauthorized` only equals
itself; entitlement sets are equal when the kinds agree, the lengths
agree and every entitlement of the other set is contained in this one;
entitlement maps compare their type IDs. -/
def Authorization.equal : Authorization → Authorization → Bool
  | .unauthorized, .unauthorized => true
  | .unauthorized, _ => false
  | .entitlementSet ents kind, .entitlementSet ents' kind' =>
      kind == kind' && ents.length == ents'.length && ents'.all (fun x => ents.contains x)
  | .entitlementSet _ _, _ => false
  | .entitlementMap id, .entitlementMap id' => id == id'
  | .entitlementMap _, _ => false

/-- `StaticType.Equal` (statictype.go): nominal for composites (type ID
only) and interfaces (location and qualified identifier), structural and
recursive elsewhere; intersections compare their interface sets by length
and containment, ignoring the legacy type; capabilities treat a missing
borrow type as equal only to a missing borrow type. The primitive case
models kind equality (its Go file is not part of this extract). -/
def StaticType.equal : StaticType → StaticType → Bool
  | .composite a, .composite b => a.typeID == b.typeID
  | .composite _, _ => false
  | .interfaceT a, .interfaceT b => a == b
  | .interfaceT _, _ => false
  | .variableSized a, .variableSized b => a.equal b
  | .variableSized _, _ => false
  | .constantSized a n, .constantSized b n' => n == n' && a.equal b
  | .constantSized _ _, _ => false
  | .dictionary k v, .dictionary k' v' => k.equal k' && v.equal v'
  | .dictionary _ _, _ => false
  | .optional a, .optional b => a.equal b
  | .optional _, _ => false
  | .intersection ts _, .intersection ts' _ =>
      ts.length == ts'.length && ts.all (fun t => ts'.any (fun o => t == o))
  | .intersection _ _, _ => false
  | .reference au a, .reference au' b => au.equal au' && a.equal b
  | .reference _ _, _ => false
  | .capability none, .capability none => true
  | .capability (some a), .capability (some b) => a.equal b
  | .capability _, _ => false
  | .function s, .function s' => s == s'
  | .function _, _ => false
  | .primitive k, .primitive k' => k == k'
  | .primitive _, _ => false
  | .dummy k, .dummy k' => k == k'
  | .dummy _, _ => false

/-- The `sema` type IDs of the five account entitlements.
Modelled from the spec: `sema.StorageType.ID()` etc. (defined outside
this extract) are the bare names of these built-in entitlement types. -/
def authAccountEntitlements : List TypeID :=
  ["Storage", "Contracts", "Keys", "Inbox", "Capabilities"]

/-- Ordered-set insertion as performed by the `orderedmap` used in
`NewEntitlementSetAuthorization`: append if not already present. -/
def orderedSetInsert (l : List TypeID) (x : TypeID) : List TypeID :=
  if l.contains x then l else l ++ [x]

/-- `interpreter.NewEntitlementSetAuthorization`: builds the ordered,
duplicate-free entitlement set from the given list. -/
def newEntitlementSetAuthorization (entitlements : List TypeID)
    (kind : EntitlementSetKind) : Authorization :=
  .entitlementSet (entitlements.foldl orderedSetInsert []) kind

/-- `statictypes.authAccountReferenceType`: the canonical fully-entitled
account reference type. -/
def authAccountReferenceType : StaticType :=
  .reference (newEntitlementSetAuthorization authAccountEntitlements .conjunction)
    (.primitive .account)

/-- `statictypes.unauthorizedAccountReferenceType`: the canonical
unauthorized account reference type. -/
def unauthorizedAccountReferenceType : StaticType :=
  .reference .unauthorized (.primitive .account)

/-- Modelled from the spec: `interpreter.AccountKeyStaticType` (defined
outside this extract) is the composite static type of the built-in
`AccountKey` type; only its shape as a composite matters here. -/
def accountKeyStaticType : StaticType :=
  .composite ⟨none, "AccountKey", "AccountKey"⟩

/-- `statictypes.StaticTypeMigration`: the optional caller-supplied
composite and interface type converters. A Go converter returning `nil`
(meaning "no change") is modelled by the function returning `none`. -/
structure StaticTypeMigration where
  compositeTypeConverter : Option (CompositeStaticType → Option StaticType)
  interfaceTypeConverter : Option (InterfaceStaticType → Option StaticType)

/-- `statictypes.NewStaticTypeMigration`: no converters configured. -/
def NewStaticTypeMigration : StaticTypeMigration := ⟨none, none⟩

/-- The fatal (panicking) outcomes of the static type conversion: an
intersection element replaced by a non-interface type, and the
unreachable default case (also reached for a `nil` borrow type). -/
inductive ConvPanic where
  | nonInterfaceReplacement
  | unreachable
deriving DecidableEq, Repr

/-- The `PrimitiveStaticType` case of `maybeConvertStaticType`: the fixed
lookup table from legacy primitive kinds to their replacements (also
used for the `dummyStaticType` wrapper, which is unwrapped first). -/
def convertPrimitive : PrimitiveStaticType → Option StaticType
  | .publicAccount => some unauthorizedAccountReferenceType
  | .authAccount => some authAccountReferenceType
  | .authAccountCapabilities => some (.primitive .account_Capabilities)
  | .publicAccountCapabilities => some (.primitive .account_Capabilities)
  | .authAccountAccountCapabilities => some (.primitive .account_AccountCapabilities)
  | .authAccountStorageCapabilities => some (.primitive .account_StorageCapabilities)
  | .authAccountContracts => some (.primitive .account_Contracts)
  | .publicAccountContracts => some (.primitive .account_Contracts)
  | .authAccountKeys => some (.primitive .account_Keys)
  | .publicAccountKeys => some (.primitive .account_Keys)
  | .authAccountInbox => some (.primitive .account_Inbox)
  | .accountKey => some accountKeyStaticType
  | _ => none

/-- The `InterfaceStaticType` case of `maybeConvertStaticType`: apply the
interface type converter if configured, otherwise no change. This is the
code executed both for a bare interface type and for each member of an
intersection (where the Go code re-enters `maybeConvertStaticType` on the
member, which immediately dispatches to this case). -/
def StaticTypeMigration.applyInterfaceConverter (m : StaticTypeMigration)
    (t : InterfaceStaticType) : Option StaticType :=
  match m.interfaceTypeConverter with
  | some f => f t
  | none => none

/-- The element loop of the `IntersectionStaticType` case: converts every
interface member, keeping unchanged members, and reports whether any
member changed; a member replaced by a non-interface type is fatal. -/
def StaticTypeMigration.convertIntersectionTypes (m : StaticTypeMigration) :
    List InterfaceStaticType → Except ConvPanic (List InterfaceStaticType × Bool)
  | [] => pure ([], false)
  | t :: rest => do
      let c := m.applyInterfaceConverter t
      let (replacement, changedHere) ←
        (match c with
        | some (.interfaceT i) => pure (i, true)
        | some _ => throw ConvPanic.nonInterfaceReplacement
        | none => pure (t, false) : Except ConvPanic (InterfaceStaticType × Bool))
      let (restConverted, restChanged) ← m.convertIntersectionTypes rest
      pure (replacement :: restConverted, changedHere || restChanged)

/-- `StaticTypeMigration.maybeConvertStaticType`: `some` is a replacement,
`none` is "no change"; `Except` carries the panics. The Go `switch`
comparing the converted referenced type against the two canonical account
reference type singletons is modelled by structural equality with the two
canonical values. -/
def StaticTypeMigration.maybeConvertStaticType (m : StaticTypeMigration) :
    StaticType → Except ConvPanic (Option StaticType)
  | .constantSized t size => do
      match ← m.maybeConvertStaticType t with
      | some c => pure (some (.constantSized c size))
      | none => pure none
  | .variableSized t => do
      match ← m.maybeConvertStaticType t with
      | some c => pure (some (.variableSized c))
      | none => pure none
  | .dictionary kt vt => do
      let ck ← m.maybeConvertStaticType kt
      let cv ← m.maybeConvertStaticType vt
      match ck, cv with
      | some k, some v => pure (some (.dictionary k v))
      | some k, none => pure (some (.dictionary k vt))
      | none, some v => pure (some (.dictionary kt v))
      | none, none => pure none
  | .capability (some bt) => do
      match ← m.maybeConvertStaticType bt with
      | some c => pure (some (.capability (some c)))
      | none => pure none
  | .capability none =>
      -- Go: `maybeConvertStaticType(nil)` falls through to the default
      -- case of the type switch and panics with an unreachable error.
      throw .unreachable
  | .intersection types legacyType => do
      let (convertedTypes, changed) ← m.convertIntersectionTypes types
      let convertedLegacyType ←
        match legacyType with
        | some l => m.maybeConvertStaticType l
        | none => pure none
      -- If the interface set has at least two items, force it to be
      -- re-stored/re-encoded, even if the interface types have not changed.
      if 2 ≤ types.length || changed || convertedLegacyType.isSome then
        pure (some (.intersection convertedTypes
          (convertedLegacyType.orElse (fun _ => legacyType))))
      else
        pure none
  | .optional t => do
      match ← m.maybeConvertStaticType t with
      | some c => pure (some (.optional c))
      | none => pure none
  | .reference auth t => do
      match ← m.maybeConvertStaticType t with
      | some c =>
          if c.beq authAccountReferenceType || c.beq unauthorizedAccountReferenceType then
            pure (some c)
          else
            pure (some (.reference auth c))
      | none => pure none
  | .function _ => pure none
  | .composite t =>
      match m.compositeTypeConverter with
      | some f => pure (f t)
      | none => pure none
  | .interfaceT t => pure (m.applyInterfaceConverter t)
  | .dummy kind => pure (convertPrimitive kind)
  | .primitive kind => pure (convertPrimitive kind)

/-- `common.Address` ([8]byte in Go), with `common.ZeroAddress` as `0`. -/
abbrev Address := Nat

/-- `common.ZeroAddress`: the reserved sentinel address. -/
def zeroAddress : Address := 0

/-- `common.PathDomain`. -/
inductive PathDomain where
  | storage
  | privateDomain
  | publicDomain
deriving DecidableEq, Repr

/-- `interpreter.PathValue`: a domain plus an identifier. -/
structure Path where
  domain : PathDomain
  identifier : String
deriving DecidableEq, Repr

/-- `interpreter.Value`: the stored value graph. Containers are
`someValue` (optional), `arrayValue`, `compositeValue` (named fields) and
`dictionaryValue`; the six type-shaped leaves carry static types; other
leaves are opaque to the migration engine, represented here by `intValue`
and `stringValue`. -/
inductive Value where
  | someValue (inner : Value)
  | arrayValue (elements : List Value)
  | compositeValue (fields : List (String × Value))
  | dictionaryValue (entries : List (Value × Value))
  | typeValue (staticType : StaticType)
  | capabilityValue (id : Nat) (address : Address) (borrowType : StaticType)
  | pathCapabilityValue (borrowType : StaticType) (path : Path) (address : Address)
  | pathLinkValue (linkType : StaticType) (targetPath : Path)
  | accountCapabilityControllerValue (borrowType : StaticType) (capabilityID : Nat)
  | storageCapabilityControllerValue (borrowType : StaticType) (capabilityID : Nat)
      (targetPath : Path)
  | intValue (n : Int)
  | stringValue (s : String)
deriving Repr

mutual

/-- Structural equality of values (the equality/hashing used for
dictionary keys), written by hand because of the nested lists. -/
def Value.beq : Value → Value → Bool
  | .someValue a, .someValue b => a.beq b
  | .arrayValue as, .arrayValue bs => Value.beqList as bs
  | .compositeValue fs, .compositeValue gs => Value.beqFields fs gs
  | .dictionaryValue es, .dictionaryValue es' => Value.beqEntries es es'
  | .typeValue t, .typeValue t' => t.beq t'
  | .capabilityValue i a b, .capabilityValue i' a' b' =>
      i == i' && a == a' && b.beq b'
  | .pathCapabilityValue b p a, .pathCapabilityValue b' p' a' =>
      b.beq b' && p == p' && a == a'
  | .pathLinkValue t p, .pathLinkValue t' p' => t.beq t' && p == p'
  | .accountCapabilityControllerValue b i, .accountCapabilityControllerValue b' i' =>
      b.beq b' && i == i'
  | .storageCapabilityControllerValue b i p, .storageCapabilityControllerValue b' i' p' =>
      b.beq b' && i == i' && p == p'
  | .intValue n, .intValue n' => n == n'
  | .stringValue s, .stringValue s' => s == s'
  | _, _ => false

def Value.beqList : List Value → List Value → Bool
  | [], [] => true
  | a :: as, b :: bs => a.beq b && Value.beqList as bs
  | _, _ => false

def Value.beqFields : List (String × Value) → List (String × Value) → Bool
  | [], [] => true
  | (n, v) :: fs, (n', v') :: gs => n == n' && v.beq v' && Value.beqFields fs gs
  | _, _ => false

def Value.beqEntries : List (Value × Value) → List (Value × Value) → Bool
  | [], [] => true
  | (k, v) :: es, (k', v') :: es' => k.beq k' && v.beq v' && Value.beqEntries es es'
  | _, _ => false

end

/-- The six type-shaped value kinds acted on by `StaticTypeMigration.Migrate`. -/
def Value.isTypeShaped : Value → Bool
  | .typeValue _ => true
  | .capabilityValue _ _ _ => true
  | .pathCapabilityValue _ _ _ => true
  | .pathLinkValue _ _ => true
  | .accountCapabilityControllerValue _ _ => true
  | .storageCapabilityControllerValue _ _ _ => true
  | _ => false

/-- The fatal outcomes of `StaticTypeMigration.Migrate`: a conversion
panic, or the `convertedBorrowType.(*interpreter.ReferenceStaticType)`
type assertion failing in the controller cases. -/
inductive MigratePanic where
  | conv (p : ConvPanic)
  | typeAssertionFailed
deriving DecidableEq, Repr

/-- `StaticTypeMigration.Migrate`: rewrites the static type embedded in a
type-shaped value, keeping every other payload field; all declared error
results of the Go function are `nil`, modelled by the always-`none`
second component; panics are the `Except` error. -/
def StaticTypeMigration.Migrate (m : StaticTypeMigration) (value : Value) :
    Except MigratePanic (Option Value × Option String) :=
  match value with
  | .typeValue t =>
      match m.maybeConvertStaticType t with
      | .error p => .error (.conv p)
      | .ok none => .ok (none, none)
      | .ok (some ct) => .ok (some (.typeValue ct), none)
  | .capabilityValue id addr bt =>
      match m.maybeConvertStaticType bt with
      | .error p => .error (.conv p)
      | .ok none => .ok (none, none)
      | .ok (some ct) => .ok (some (.capabilityValue id addr ct), none)
  | .pathCapabilityValue bt path addr =>
      match m.maybeConvertStaticType bt with
      | .error p => .error (.conv p)
      | .ok none => .ok (none, none)
      | .ok (some ct) => .ok (some (.pathCapabilityValue ct path addr), none)
  | .pathLinkValue t targetPath =>
      match m.maybeConvertStaticType t with
      | .error p => .error (.conv p)
      | .ok none => .ok (none, none)
      | .ok (some ct) => .ok (some (.pathLinkValue ct targetPath), none)
  | .accountCapabilityControllerValue bt cid =>
      match m.maybeConvertStaticType bt with
      | .error p => .error (.conv p)
      | .ok none => .ok (none, none)
      | .ok (some ct) =>
          match ct with
          | .reference _ _ => .ok (some (.accountCapabilityControllerValue ct cid), none)
          | _ => .error .typeAssertionFailed
  | .storageCapabilityControllerValue bt cid tp =>
      match m.maybeConvertStaticType bt with
      | .error p => .error (.conv p)
      | .ok none => .ok (none, none)
      | .ok (some ct) =>
          match ct with
          | .reference _ _ =>
              .ok (some (.storageCapabilityControllerValue ct cid tp), none)
          | _ => .error .typeAssertionFailed
  | _ => .ok (none, none)

/-! The storage migration engine (`migrations` package): the recursive
traversal `migrateNestedValue`, modelled with explicit state passing.
For each value the model returns the value after in-place mutations of
its containers, the replacement signal (`none` = unchanged), and the
reports issued. The Go code re-reads a composite field / dictionary
value from the container at iteration time; that read differs from the
snapshot taken at loop entry only when a composite has duplicate field
names or an earlier iteration inserted a migrated dictionary key equal
to a later snapshot key, so the model iterates over the snapshot pairs
and applies updates to the evolving container state. -/

/-- The `Migration` interface of the storage migration engine: a name and
a leaf transformation returning an optional replacement. -/
structure EngineMigration where
  name : String
  migrate : Address → Value → Option Value

/-- One `Reporter.Report` notification of the engine. -/
structure Report where
  address : Address
  domain : PathDomain
  key : String
  migration : String
deriving DecidableEq, Repr

/-- Fatal structural invariant violations of the traversal (a previously
listed dictionary key absent on lookup). -/
inductive EnginePanic where
  | unreachable
deriving DecidableEq, Repr

/-- `DictionaryValue.Get`: first entry whose key is (value-)equal. -/
def dictGet : List (Value × Value) → Value → Option Value
  | [], _ => none
  | (k', v) :: rest, k => if k'.beq k then some v else dictGet rest k

/-- `DictionaryValue.RemoveKey`: drop the entry with an equal key. -/
def dictRemove : List (Value × Value) → Value → List (Value × Value)
  | [], _ => []
  | (k', v) :: rest, k => if k'.beq k then rest else (k', v) :: dictRemove rest k

/-- `DictionaryValue.SetKey`: replace the value under an equal key, or
insert a new entry. -/
def dictSet : List (Value × Value) → Value → Value → List (Value × Value)
  | [], k, v => [(k, v)]
  | (k', v') :: rest, k, v =>
      if k'.beq k then (k', v) :: rest else (k', v') :: dictSet rest k v

/-- `CompositeValue.SetMember`: replace the value of the named field. -/
def setField : List (String × Value) → String → Value → List (String × Value)
  | [], n, v => [(n, v)]
  | (n', v') :: rest, n, v =>
      if n' == n then (n', v) :: rest else (n', v') :: setField rest n v

/-- The leaf (default) case of `migrateNestedValue`: offer the working
value to each migration in order; a non-nil result becomes the working
value and the latest replacement signal, and is reported. -/
def migrateLeafLoop :
    List EngineMigration → Address → PathDomain → String → Value → Option Value →
      Option Value × List Report
  | [], _, _, _, _, newValue => (newValue, [])
  | mig :: rest, addr, dom, key, value, newValue =>
      match mig.migrate addr value with
      | some converted =>
          let (nv, reports) := migrateLeafLoop rest addr dom key converted (some converted)
          (nv, ⟨addr, dom, key, mig.name⟩ :: reports)
      | none => migrateLeafLoop rest addr dom key value newValue

mutual

/-- `StorageMigration.migrateNestedValue`: the recursive traversal. -/
def migrateNestedValue (migs : List EngineMigration) (addr : Address)
    (dom : PathDomain) (key : String) :
    Value → Except EnginePanic (Value × Option Value × List Report)
  | .someValue inner => do
      let (inner', s, r) ← migrateNestedValue migs addr dom key inner
      match s with
      | some newInner => pure (.someValue inner', some (.someValue newInner), r)
      | none => pure (.someValue inner', none, r)
  | .arrayValue elements => do
      let (elements', r) ← migrateArrayElements migs addr dom key elements
      pure (.arrayValue elements', none, r)
  | .compositeValue fields => do
      let (fields', r) ← migrateCompositeFields migs addr dom key fields fields
      pure (.compositeValue fields', none, r)
  | .dictionaryValue entries => do
      let (entries', r) ← migrateDictEntries migs addr dom key entries entries
      pure (.dictionaryValue entries', none, r)
  | v =>
      let (nv, reports) := migrateLeafLoop migs addr dom key v none
      pure (v, nv, reports)

/-- The array element loop: write back replaced elements in place. -/
def migrateArrayElements (migs : List EngineMigration) (addr : Address)
    (dom : PathDomain) (key : String) :
    List Value → Except EnginePanic (List Value × List Report)
  | [] => pure ([], [])
  | e :: rest => do
      let (e', s, r) ← migrateNestedValue migs addr dom key e
      let (rest', rr) ← migrateArrayElements migs addr dom key rest
      pure ((s.getD e') :: rest', r ++ rr)

/-- The composite field loop over the snapshotted fields, threading the
composite's evolving field state. -/
def migrateCompositeFields (migs : List EngineMigration) (addr : Address)
    (dom : PathDomain) (key : String) :
    List (String × Value) → List (String × Value) →
      Except EnginePanic (List (String × Value) × List Report)
  | [], state => pure (state, [])
  | (name, v) :: rest, state => do
      let (v', s, r) ← migrateNestedValue migs addr dom key v
      let state' := setField state name (s.getD v')
      let (stateF, rr) ← migrateCompositeFields migs addr dom key rest state'
      pure (stateF, r ++ rr)

/-- The dictionary entry loop over the snapshotted entries, threading the
dictionary's evolving entry state: a missing snapshotted key is fatal; a
migrated key is removed and re-inserted under the new key; the stored
value is the migrated value if present, else the original, always
wrapped as `someValue` on insertion. -/
def migrateDictEntries (migs : List EngineMigration) (addr : Address)
    (dom : PathDomain) (key : String) :
    List (Value × Value) → List (Value × Value) →
      Except EnginePanic (List (Value × Value) × List Report)
  | [], state => pure (state, [])
  | (k, v) :: rest, state => do
      match dictGet state k with
      | none => throw .unreachable
      | some _ => do
          let (_k', sk, rk) ← migrateNestedValue migs addr dom key k
          let (v', sv, rv) ← migrateNestedValue migs addr dom key v
          let state' :=
            match sk, sv with
            | none, none => dictSet state k v'
            | _, _ =>
                let state1 := if sk.isSome then dictRemove state k else state
                dictSet state1 (sk.getD k) (.someValue (sv.getD v'))
          let (stateF, rr) ← migrateDictEntries migs addr dom key rest state'
          pure (stateF, rk ++ rv ++ rr)

end

/-- The observable events of one `StorageMigration.Migrate` run: one
per-address migration pass (`migrateValuesInAccount`, whose body lives in
the account storage collaborator) and the single `Storage.Commit` call. -/
inductive MigrateEvent where
  | pass (address : Address)
  | commit
deriving DecidableEq, Repr

/-- The address loop of `StorageMigration.Migrate`: request addresses
until the zero-address sentinel, performing one per-address pass each. -/
def migrateAddressLoop : List Address → List MigrateEvent
  | [] => []
  | a :: rest =>
      if a = zeroAddress then [] else .pass a :: migrateAddressLoop rest

/-- `StorageMigration.Migrate`: run the address loop, then call
`Storage.Commit` exactly once; a commit error is fatal (the Go code
panics with it), modelled as the returned error. The address iterator is
modelled by the list of addresses it yields in order. -/
def StorageMigration.Migrate (addresses : List Address)
    (commitError : Option String) : List MigrateEvent × Option String :=
  (migrateAddressLoop addresses ++ [.commit], commitError)

/-- One notification of the error-aware `Reporter`
(migration_reporter.go): `Migrated` or `Error`, each with the full
storage key context and the migration name. -/
inductive ReporterEvent where
  | migrated (address : Address) (domain : PathDomain) (key : String)
      (migration : String)
  | errorReport (address : Address) (domain : PathDomain) (key : String)
      (migration : String) (err : String)
deriving DecidableEq, Repr

/-- The error-aware `Migration` shape (the `ValueMigration` interface):
`Migrate` returns an optional replacement or an error. -/
structure ValueMigration where
  name : String
  migrate : Address → PathDomain → String → Value → Except String (Option Value)

/-- Modelled from the spec: the leaf case of the newer, error-aware
migration engine (`migration.go`, absent from this extract; only its
`Reporter` and a `ValueMigration` implementation are present). Offer the
working value to each migration in order; an error is recoverable: it is
reported via `Reporter.Error` with the full address/domain/key/migration
context, the working value is kept, and the remaining migrations
continue; a replacement updates the working value and is reported via
`Reporter.Migrated`. -/
def migrateLeafWithErrors :
    List ValueMigration → Address → PathDomain → String → Value →
      Value × Option Value × List ReporterEvent
  | [], _, _, _, value => (value, none, [])
  | mig :: rest, addr, dom, key, value =>
      match mig.migrate addr dom key value with
      | .error e =>
          let (v', s, evs) := migrateLeafWithErrors rest addr dom key value
          (v', s, .errorReport addr dom key mig.name e :: evs)
      | .ok none => migrateLeafWithErrors rest addr dom key value
      | .ok (some converted) =>
          let (v', _, evs) := migrateLeafWithErrors rest addr dom key converted
          (v', some v', .migrated addr dom key mig.name :: evs)

/-- Modelled from the spec: the array container case of the newer engine
over an array of leaves, showing that the traversal continues with the
remaining leaves after a recoverable per-leaf error. -/
def migrateArrayLeavesWithErrors (migs : List ValueMigration) (addr : Address)
    (dom : PathDomain) (key : String) :
    List Value → List Value × List ReporterEvent
  | [] => ([], [])
  | e :: rest =>
      let (e', s, evs) := migrateLeafWithErrors migs addr dom key e
      let (rest', evsRest) := migrateArrayLeavesWithErrors migs addr dom key rest
      ((s.getD e') :: rest', evs ++ evsRest)

/-- The primitive kinds appearing as keys of the fixed lookup table in
the `PrimitiveStaticType` case of `maybeConvertStaticType`. -/
def primitiveConversionTableKeys : List PrimitiveStaticType :=
  [.publicAccount, .authAccount,
   .authAccountCapabilities, .publicAccountCapabilities,
   .authAccountAccountCapabilities, .authAccountStorageCapabilities,
   .authAccountContracts, .publicAccountContracts,
   .authAccountKeys, .publicAccountKeys,
   .authAccountInbox, .accountKey]

/-- Static types containing no intersection with two or more interface
members (anywhere in the tree). -/
def StaticType.noMultiIntersection : StaticType → Bool
  | .variableSized t => t.noMultiIntersection
  | .constantSized t _ => t.noMultiIntersection
  | .dictionary k v => k.noMultiIntersection && v.noMultiIntersection
  | .optional t => t.noMultiIntersection
  | .reference _ t => t.noMultiIntersection
  | .capability (some t) => t.noMultiIntersection
  | .intersection ts lt =>
      decide (ts.length < 2) &&
        (match lt with
          | some l => l.noMultiIntersection
          | none => true)
  | _ => true

/-- Values that are leaves from the traversal's perspective (not one of
the four container kinds). -/
def Value.isLeaf : Value → Bool
  | .someValue _ => false
  | .arrayValue _ => false
  | .compositeValue _ => false
  | .dictionaryValue _ => false
  | _ => true

/-- A dictionary entry neither of whose components the traversal changes
in place or replaces. -/
def untouchedEntry (migs : List EngineMigration) (addr : Address)
    (dom : PathDomain) (key : String) (p : Value × Value) : Prop :=
  (∃ r, migrateNestedValue migs addr dom key p.1 = .ok (p.1, none, r)) ∧
  (∃ r, migrateNestedValue migs addr dom key p.2 = .ok (p.2, none, r))

/-! Helper lemmas. -/

theorem maybeConvert_primitive_eq (m : StaticTypeMigration) (k : PrimitiveStaticType) :
    m.maybeConvertStaticType (.primitive k) = .ok (convertPrimitive k) := by
  simp [StaticTypeMigration.maybeConvertStaticType, pure, Except.pure]

theorem convertPrimitive_not_in_table (k : PrimitiveStaticType)
    (hk : k ∉ primitiveConversionTableKeys) : convertPrimitive k = none := by
  cases k <;> simp_all [primitiveConversionTableKeys, convertPrimitive]

theorem authAccountReferenceType_def :
    authAccountReferenceType =
      .reference
        (.entitlementSet ["Storage", "Contracts", "Keys", "Inbox", "Capabilities"]
          .conjunction)
        (.primitive .account) := by
  simp [authAccountReferenceType, newEntitlementSetAuthorization,
    authAccountEntitlements, orderedSetInsert]

theorem beq_primitive_iff (t : StaticType) (k : PrimitiveStaticType) :
    t.beq (.primitive k) = true ↔ t = .primitive k := by
  cases t <;> simp [StaticType.beq]

theorem beq_reference_account_iff (t : StaticType) (au : Authorization) :
    t.beq (.reference au (.primitive .account)) = true ↔
      t = .reference au (.primitive .account) := by
  cases t <;> simp [StaticType.beq, beq_primitive_iff]

theorem beq_authAccountReferenceType_iff (t : StaticType) :
    t.beq authAccountReferenceType = true ↔ t = authAccountReferenceType := by
  rw [authAccountReferenceType_def]
  exact beq_reference_account_iff t _

theorem beq_unauthorizedAccountReferenceType_iff (t : StaticType) :
    t.beq unauthorizedAccountReferenceType = true ↔
      t = unauthorizedAccountReferenceType := by
  exact beq_reference_account_iff t .unauthorized

/-! Claims. -/

/-- C3: `maybeConvertStaticType` maps `PrimitiveStaticTypeAuthAccount` to
a reference to the `Account` primitive type whose authorization is a
conjunction entitlement set of exactly the Storage, Contracts, Keys,
Inbox and Capabilities entitlement type IDs, maps
`PrimitiveStaticTypePublicAccount` to an unauthorized reference to the
`Account` primitive type, and leaves every primitive kind outside the
fixed lookup table unchanged (`nil`). -/
theorem primitive_conversion_table_spec :
    (∀ m : StaticTypeMigration,
      m.maybeConvertStaticType (.primitive .authAccount) =
        .ok (some (.reference
          (.entitlementSet ["Storage", "Contracts", "Keys", "Inbox", "Capabilities"]
            .conjunction)
          (.primitive .account)))) ∧
    (∀ m : StaticTypeMigration,
      m.maybeConvertStaticType (.primitive .publicAccount) =
        .ok (some (.reference .unauthorized (.primitive .account)))) ∧
    (∀ (m : StaticTypeMigration) (k : PrimitiveStaticType),
      k ∉ primitiveConversionTableKeys →
      m.maybeConvertStaticType (.primitive k) = .ok none) := by
  refine ⟨fun m => ?_, fun m => ?_, fun m k hk => ?_⟩
  · rw [maybeConvert_primitive_eq]
    simp [convertPrimitive, authAccountReferenceType_def]
  · rw [maybeConvert_primitive_eq]
    simp [convertPrimitive, unauthorizedAccountReferenceType]
  · rw [maybeConvert_primitive_eq, convertPrimitive_not_in_table k hk]

/-- Witness for C3 at the primitive kind `Account`, which is not in the
lookup table. -/
theorem primitive_conversion_table_spec_witness :
    PrimitiveStaticType.account ∉ primitiveConversionTableKeys ∧
    NewStaticTypeMigration.maybeConvertStaticType (.primitive .account) = .ok none :=
  ⟨by decide,
   primitive_conversion_table_spec.2.2 NewStaticTypeMigration .account (by decide)⟩

/-- C4: for a reference type whose referenced type converts, the
conversion collapses to the converted referenced type when that is one
of the two canonical account reference types (never building a reference
to a reference), and otherwise rebuilds the reference with the same
authorization; a reference whose referenced type does not convert yields
no replacement. -/
theorem reference_conversion_spec :
    (∀ (m : StaticTypeMigration) (auth : Authorization) (t ct : StaticType),
      m.maybeConvertStaticType t = .ok (some ct) →
      (ct = authAccountReferenceType ∨ ct = unauthorizedAccountReferenceType →
        m.maybeConvertStaticType (.reference auth t) = .ok (some ct)) ∧
      (ct ≠ authAccountReferenceType → ct ≠ unauthorizedAccountReferenceType →
        m.maybeConvertStaticType (.reference auth t) =
          .ok (some (.reference auth ct)))) ∧
    (∀ (m : StaticTypeMigration) (auth : Authorization) (t : StaticType),
      m.maybeConvertStaticType t = .ok none →
      m.maybeConvertStaticType (.reference auth t) = .ok none) := by
  constructor
  · intro m auth t ct hconv
    constructor
    · intro hcanon
      have hcond :
          (ct.beq authAccountReferenceType || ct.beq unauthorizedAccountReferenceType) =
            true := by
        rcases hcanon with h | h
        · subst h
          simp [(beq_authAccountReferenceType_iff authAccountReferenceType).2 rfl]
        · subst h
          simp [(beq_unauthorizedAccountReferenceType_iff
            unauthorizedAccountReferenceType).2 rfl]
      simp [StaticTypeMigration.maybeConvertStaticType, hconv, bind, Except.bind,
        pure, Except.pure, hcond]
    · intro h1 h2
      have hc1 : ct.beq authAccountReferenceType = false := by
        cases hb : ct.beq authAccountReferenceType
        · rfl
        · exact absurd ((beq_authAccountReferenceType_iff ct).1 hb) h1
      have hc2 : ct.beq unauthorizedAccountReferenceType = false := by
        cases hb : ct.beq unauthorizedAccountReferenceType
        · rfl
        · exact absurd ((beq_unauthorizedAccountReferenceType_iff ct).1 hb) h2
      simp [StaticTypeMigration.maybeConvertStaticType, hconv, bind, Except.bind,
        pure, Except.pure, hc1, hc2]
  · intro m auth t hconv
    simp [StaticTypeMigration.maybeConvertStaticType, hconv, bind, Except.bind,
      pure, Except.pure]

/-- Witness for C4: a reference to the legacy `AuthAccount` primitive
collapses to the canonical fully-entitled account reference type, and a
reference to an unconverted primitive yields no replacement. -/
theorem reference_conversion_spec_witness :
    NewStaticTypeMigration.maybeConvertStaticType (.primitive .authAccount) =
      .ok (some authAccountReferenceType) ∧
    NewStaticTypeMigration.maybeConvertStaticType
      (.reference .unauthorized (.primitive .authAccount)) =
      .ok (some authAccountReferenceType) ∧
    NewStaticTypeMigration.maybeConvertStaticType
      (.reference .unauthorized (.primitive .account)) = .ok none := by
  have h1 : NewStaticTypeMigration.maybeConvertStaticType (.primitive .authAccount) =
      .ok (some authAccountReferenceType) := by
    rw [maybeConvert_primitive_eq]; simp [convertPrimitive]
  have h2 : NewStaticTypeMigration.maybeConvertStaticType (.primitive .account) =
      .ok none := by
    rw [maybeConvert_primitive_eq]; simp [convertPrimitive]
  exact ⟨h1,
    (reference_conversion_spec.1 NewStaticTypeMigration .unauthorized _ _ h1).1
      (Or.inl rfl),
    reference_conversion_spec.2 NewStaticTypeMigration .unauthorized _ h2⟩

/-- C9: whenever `StaticTypeMigration.Migrate` returns, its error result
is `nil`; and on any value that is not type-shaped it returns no
replacement and no error. -/
theorem migrate_never_errors :
    (∀ (m : StaticTypeMigration) (v : Value) (r : Option Value × Option String),
      m.Migrate v = .ok r → r.2 = none) ∧
    (∀ (m : StaticTypeMigration) (v : Value), v.isTypeShaped = false →
      m.Migrate v = .ok (none, none)) := by
  constructor
  · intro m v r h
    cases v <;> simp only [StaticTypeMigration.Migrate] at h <;>
      (repeat' split at h) <;>
      (first
        | (simp at h; done)
        | (injection h with h'; rw [← h']))
  · intro m v hv
    cases v <;> simp_all [Value.isTypeShaped, StaticTypeMigration.Migrate]

/-- Witness for C9 at a plain integer leaf. -/
theorem migrate_never_errors_witness :
    Value.isLeaf (.intValue 3) = true ∧
    NewStaticTypeMigration.Migrate (.intValue 3) = .ok (none, none) ∧
    ((NewStaticTypeMigration.Migrate (.intValue 3) = .ok (none, none)) →
      ((none : Option Value), (none : Option String)).2 = none) :=
  ⟨by simp [Value.isLeaf],
   migrate_never_errors.2 NewStaticTypeMigration (.intValue 3) (by simp [Value.isTypeShaped]),
   fun h => migrate_never_errors.1 NewStaticTypeMigration (.intValue 3) (none, none) h⟩

/-- C10: when `StaticTypeMigration.Migrate` produces a replacement for a
type-shaped value, every non-type payload field is preserved: a
capability keeps its ID and address, a path capability its path and
address, a path link its target path, an account capability controller
its capability ID, and a storage capability controller its capability ID
and target path. -/
theorem migrate_preserves_payload :
    (∀ (m : StaticTypeMigration) (id : Nat) (addr : Address) (bt : StaticType)
        (w : Value) (e : Option String),
      m.Migrate (.capabilityValue id addr bt) = .ok (some w, e) →
      ∃ ct, w = .capabilityValue id addr ct) ∧
    (∀ (m : StaticTypeMigration) (bt : StaticType) (p : Path) (addr : Address)
        (w : Value) (e : Option String),
      m.Migrate (.pathCapabilityValue bt p addr) = .ok (some w, e) →
      ∃ ct, w = .pathCapabilityValue ct p addr) ∧
    (∀ (m : StaticTypeMigration) (t : StaticType) (tp : Path)
        (w : Value) (e : Option String),
      m.Migrate (.pathLinkValue t tp) = .ok (some w, e) →
      ∃ ct, w = .pathLinkValue ct tp) ∧
    (∀ (m : StaticTypeMigration) (bt : StaticType) (cid : Nat)
        (w : Value) (e : Option String),
      m.Migrate (.accountCapabilityControllerValue bt cid) = .ok (some w, e) →
      ∃ ct, w = .accountCapabilityControllerValue ct cid) ∧
    (∀ (m : StaticTypeMigration) (bt : StaticType) (cid : Nat) (tp : Path)
        (w : Value) (e : Option String),
      m.Migrate (.storageCapabilityControllerValue bt cid tp) = .ok (some w, e) →
      ∃ ct, w = .storageCapabilityControllerValue ct cid tp) := by
  refine ⟨fun m id addr bt w e h => ?_, fun m bt p addr w e h => ?_,
    fun m t tp w e h => ?_, fun m bt cid w e h => ?_, fun m bt cid tp w e h => ?_⟩ <;>
    (simp only [StaticTypeMigration.Migrate] at h
     repeat' split at h) <;>
    (first
      | (simp at h; done)
      | (simp at h; exact ⟨_, h.1.symm⟩))

/-- Witness for C10: migrating a capability value whose borrow type is
the legacy `AuthAccount` primitive preserves its ID and address. -/
theorem migrate_preserves_payload_witness :
    NewStaticTypeMigration.Migrate (.capabilityValue 7 42 (.primitive .authAccount)) =
      .ok (some (.capabilityValue 7 42 authAccountReferenceType), none) ∧
    ∃ ct, Value.capabilityValue 7 42 authAccountReferenceType = .capabilityValue 7 42 ct := by
  have h : NewStaticTypeMigration.Migrate
      (.capabilityValue 7 42 (.primitive .authAccount)) =
      .ok (some (.capabilityValue 7 42 authAccountReferenceType), none) := by
    simp [StaticTypeMigration.Migrate, maybeConvert_primitive_eq, convertPrimitive]
  exact ⟨h, migrate_preserves_payload.1 NewStaticTypeMigration 7 42
    (.primitive .authAccount) _ _ h⟩

theorem migrateAddressLoop_no_commit (addrs : List Address) :
    (migrateAddressLoop addrs).count .commit = 0 := by
  induction addrs with
  | nil => rfl
  | cons a rest ih =>
      by_cases h : a = zeroAddress <;> simp [migrateAddressLoop, h, ih]

/-- C7: the address loop performs exactly one per-address pass for each
address yielded before the zero-address sentinel and none afterwards,
`Storage.Commit` is called exactly once, after the loop; with iterator
`[a1, a2, zero, ...]` exactly two passes happen; a commit failure is
returned as the fatal outcome. -/
theorem storage_migrate_sentinel :
    (∀ addrs : List Address,
      migrateAddressLoop addrs =
        (addrs.takeWhile (fun a => a != zeroAddress)).map .pass) ∧
    (∀ (addrs : List Address) (ce : Option String),
      StorageMigration.Migrate addrs ce =
        (migrateAddressLoop addrs ++ [.commit], ce)) ∧
    (∀ (addrs : List Address) (ce : Option String),
      (StorageMigration.Migrate addrs ce).1.count .commit = 1) ∧
    (∀ (a1 a2 : Address) (rest : List Address) (ce : Option String),
      a1 ≠ zeroAddress → a2 ≠ zeroAddress →
      StorageMigration.Migrate (a1 :: a2 :: zeroAddress :: rest) ce =
        ([.pass a1, .pass a2, .commit], ce)) := by
  refine ⟨fun addrs => ?_, fun addrs ce => rfl, fun addrs ce => ?_,
    fun a1 a2 rest ce h1 h2 => ?_⟩
  · induction addrs with
    | nil => rfl
    | cons a rest ih =>
        by_cases h : a = zeroAddress <;> simp [migrateAddressLoop, h, ih]
  · simp [StorageMigration.Migrate, migrateAddressLoop_no_commit]
  · simp [StorageMigration.Migrate, migrateAddressLoop, h1, h2]

/-- Witness for C7 with iterator `[1, 2, 0]`: two passes, one commit. -/
theorem storage_migrate_sentinel_witness :
    (1 : Address) ≠ zeroAddress ∧ (2 : Address) ≠ zeroAddress ∧
    StorageMigration.Migrate [1, 2, zeroAddress] none =
      ([.pass 1, .pass 2, .commit], none) :=
  ⟨by decide, by decide,
   storage_migrate_sentinel.2.2.2 1 2 [] none (by decide) (by decide)⟩

/-- C6: for a leaf `x` and migrations `[A, B]` in that order, if `A`
replaces `x` with `y` and `B` replaces `y` with `z`, the leaf's final
replacement is `z = B(A(x))` and the reporter receives exactly the two
reports, `A`'s name first, then `B`'s (later migrations are offered the
already-replaced value). -/
theorem leaf_chaining :
    ∀ (A B : EngineMigration) (addr : Address) (dom : PathDomain) (key : String)
      (x y z : Value),
      x.isLeaf = true →
      A.migrate addr x = some y → B.migrate addr y = some z →
      migrateNestedValue [A, B] addr dom key x =
        .ok (x, some z,
          [⟨addr, dom, key, A.name⟩, ⟨addr, dom, key, B.name⟩]) := by
  intro A B addr dom key x y z hleaf hA hB
  cases x <;> simp [Value.isLeaf] at hleaf <;>
    simp [migrateNestedValue, migrateLeafLoop, hA, hB, pure, Except.pure]

/-- Witness for C6: chaining two concrete migrations on an integer leaf. -/
theorem leaf_chaining_witness :
    Value.isLeaf (.intValue 0) = true ∧
    migrateNestedValue
      [⟨"A", fun _ v => match v with | .intValue 0 => some (.intValue 1) | _ => none⟩,
       ⟨"B", fun _ v => match v with | .intValue 1 => some (.intValue 2) | _ => none⟩]
      5 .storage "foo" (.intValue 0) =
      .ok (.intValue 0, some (.intValue 2),
        [⟨5, .storage, "foo", "A"⟩, ⟨5, .storage, "foo", "B"⟩]) :=
  ⟨by simp [Value.isLeaf],
   leaf_chaining _ _ 5 .storage "foo" (.intValue 0) (.intValue 1) (.intValue 2)
     (by simp [Value.isLeaf]) rfl rfl⟩

/-- C2: the intersection case rebuilds whenever the interface set has two
or more members, or a member changed, or the legacy type changed; an
intersection with exactly two unchanged interface members is still
rebuilt and the rebuilt result is structurally `Equal` to the original;
an intersection with fewer than two members and no changed parts yields
no replacement. -/
theorem intersection_rebuild_spec :
    (∀ (m : StaticTypeMigration) (ts ts' : List InterfaceStaticType)
        (lt : Option StaticType) (changed : Bool) (lc : Option StaticType),
      m.convertIntersectionTypes ts = .ok (ts', changed) →
      (match lt with
        | some l => m.maybeConvertStaticType l
        | none => pure none) = .ok lc →
      (2 ≤ ts.length ∨ changed = true ∨ lc.isSome = true) →
      m.maybeConvertStaticType (.intersection ts lt) =
        .ok (some (.intersection ts' (lc.orElse fun _ => lt)))) ∧
    (∀ (m : StaticTypeMigration) (ts ts' : List InterfaceStaticType)
        (lt : Option StaticType),
      ts.length < 2 →
      m.convertIntersectionTypes ts = .ok (ts', false) →
      (match lt with
        | some l => m.maybeConvertStaticType l
        | none => pure none) = .ok none →
      m.maybeConvertStaticType (.intersection ts lt) = .ok none) ∧
    (∀ (m : StaticTypeMigration) (i1 i2 : InterfaceStaticType)
        (lt : Option StaticType),
      m.applyInterfaceConverter i1 = none →
      m.applyInterfaceConverter i2 = none →
      (match lt with
        | some l => m.maybeConvertStaticType l
        | none => pure none) = .ok none →
      m.maybeConvertStaticType (.intersection [i1, i2] lt) =
        .ok (some (.intersection [i1, i2] lt)) ∧
      StaticType.equal (.intersection [i1, i2] lt) (.intersection [i1, i2] lt) = true) := by
  have hmain : ∀ (m : StaticTypeMigration) (ts ts' : List InterfaceStaticType)
      (lt : Option StaticType) (changed : Bool) (lc : Option StaticType),
      m.convertIntersectionTypes ts = .ok (ts', changed) →
      (match lt with
        | some l => m.maybeConvertStaticType l
        | none => pure none) = .ok lc →
      (2 ≤ ts.length ∨ changed = true ∨ lc.isSome = true) →
      m.maybeConvertStaticType (.intersection ts lt) =
        .ok (some (.intersection ts' (lc.orElse fun _ => lt))) := by
    intro m ts ts' lt changed lc h1 h2 hcond
    cases lt with
    | none =>
        simp only [pure, Except.pure, Except.ok.injEq] at h2
        subst h2
        have hb : (decide (2 ≤ ts.length) || changed ||
            (none : Option StaticType).isSome) = true := by
          rcases hcond with h | h | h <;> simp_all
        simp [StaticTypeMigration.maybeConvertStaticType, h1, bind, Except.bind,
          pure, Except.pure, hb]
        intro hl
        rcases hcond with h | h | h
        · omega
        · exact h
        · simp at h
    | some l =>
        simp only at h2
        have hb : (decide (2 ≤ ts.length) || changed || lc.isSome) = true := by
          rcases hcond with h | h | h <;> simp_all
        simp [StaticTypeMigration.maybeConvertStaticType, h1, h2, bind,
          Except.bind, pure, Except.pure, hb]
  refine ⟨hmain, ?_, ?_⟩
  · intro m ts ts' lt hlen h1 h2
    have hlen' : ¬ (2 ≤ ts.length) := by omega
    cases lt with
    | none =>
        simp [StaticTypeMigration.maybeConvertStaticType, h1, bind, Except.bind,
          pure, Except.pure, hlen']
    | some l =>
        simp only at h2
        simp [StaticTypeMigration.maybeConvertStaticType, h1, h2, bind,
          Except.bind, pure, Except.pure, hlen']
  · intro m i1 i2 lt hi1 hi2 hlt
    have hloop : m.convertIntersectionTypes [i1, i2] = .ok ([i1, i2], false) := by
      simp [StaticTypeMigration.convertIntersectionTypes, hi1, hi2,
        bind, Except.bind, pure, Except.pure]
    constructor
    · have := hmain m [i1, i2] [i1, i2] lt false none hloop hlt (Or.inl (by simp))
      simpa using this
    · simp [StaticType.equal]

/-- Witness for C2: a two-member intersection with no converters and no
legacy type is rebuilt unchanged. -/
theorem intersection_rebuild_spec_witness :
    NewStaticTypeMigration.applyInterfaceConverter ⟨none, "I1"⟩ = none ∧
    NewStaticTypeMigration.maybeConvertStaticType
      (.intersection [⟨none, "I1"⟩, ⟨none, "I2"⟩] none) =
      .ok (some (.intersection [⟨none, "I1"⟩, ⟨none, "I2"⟩] none)) ∧
    StaticType.equal
      (.intersection [⟨none, "I1"⟩, ⟨none, "I2"⟩] none)
      (.intersection [⟨none, "I1"⟩, ⟨none, "I2"⟩] none) = true := by
  have h := intersection_rebuild_spec.2.2 NewStaticTypeMigration
    ⟨none, "I1"⟩ ⟨none, "I2"⟩ none rfl rfl rfl
  exact ⟨rfl, h.1, h.2⟩

theorem applyInterfaceConverter_default (t : InterfaceStaticType) :
    NewStaticTypeMigration.applyInterfaceConverter t = none := rfl

theorem convertIntersectionTypes_default (ts : List InterfaceStaticType) :
    NewStaticTypeMigration.convertIntersectionTypes ts = .ok (ts, false) := by
  induction ts with
  | nil => simp [StaticTypeMigration.convertIntersectionTypes, pure, Except.pure]
  | cons t rest ih =>
      simp [StaticTypeMigration.convertIntersectionTypes,
        applyInterfaceConverter_default, ih,
        bind, Except.bind, pure, Except.pure]

theorem convert_default_authRef :
    NewStaticTypeMigration.maybeConvertStaticType authAccountReferenceType = .ok none := by
  rw [authAccountReferenceType_def]
  simp [StaticTypeMigration.maybeConvertStaticType, maybeConvert_primitive_eq,
    convertPrimitive, bind, Except.bind, pure, Except.pure]

theorem convert_default_unauthRef :
    NewStaticTypeMigration.maybeConvertStaticType unauthorizedAccountReferenceType =
      .ok none := by
  simp [unauthorizedAccountReferenceType, StaticTypeMigration.maybeConvertStaticType,
    maybeConvert_primitive_eq, convertPrimitive, bind, Except.bind, pure, Except.pure]

theorem convert_default_accountKey :
    NewStaticTypeMigration.maybeConvertStaticType accountKeyStaticType = .ok none := by
  simp [accountKeyStaticType, StaticTypeMigration.maybeConvertStaticType,
    NewStaticTypeMigration, pure, Except.pure]

/-- Outputs of a conversion under the converter-free migration convert to
no further change, on types without multi-member intersections. -/
theorem convertStableAux : ∀ (t : StaticType), t.noMultiIntersection = true →
    ∀ t', NewStaticTypeMigration.maybeConvertStaticType t = .ok (some t') →
    NewStaticTypeMigration.maybeConvertStaticType t' = .ok none
  | .composite c => by
      intro hnm t' hc
      simp [StaticTypeMigration.maybeConvertStaticType, NewStaticTypeMigration,
        pure, Except.pure] at hc
  | .interfaceT i => by
      intro hnm t' hc
      simp [StaticTypeMigration.maybeConvertStaticType,
        StaticTypeMigration.applyInterfaceConverter, NewStaticTypeMigration,
        pure, Except.pure] at hc
  | .function s => by
      intro hnm t' hc
      simp [StaticTypeMigration.maybeConvertStaticType, pure, Except.pure] at hc
  | .primitive k => by
      intro hnm t' hc
      rw [maybeConvert_primitive_eq] at hc
      cases k <;> simp [convertPrimitive] at hc <;> rw [← hc] <;>
        first
          | exact convert_default_authRef
          | exact convert_default_unauthRef
          | exact convert_default_accountKey
          | (rw [maybeConvert_primitive_eq]; simp [convertPrimitive])
  | .dummy k => by
      intro hnm t' hc
      have hd : NewStaticTypeMigration.maybeConvertStaticType (.dummy k) =
          .ok (convertPrimitive k) := by
        simp [StaticTypeMigration.maybeConvertStaticType, pure, Except.pure]
      rw [hd] at hc
      cases k <;> simp [convertPrimitive] at hc <;> rw [← hc] <;>
        first
          | exact convert_default_authRef
          | exact convert_default_unauthRef
          | exact convert_default_accountKey
          | (rw [maybeConvert_primitive_eq]; simp [convertPrimitive])
  | .variableSized u => by
      intro hnm t' hc
      simp only [StaticType.noMultiIntersection] at hnm
      cases hu : NewStaticTypeMigration.maybeConvertStaticType u with
      | error p =>
          simp [StaticTypeMigration.maybeConvertStaticType, hu, bind, Except.bind] at hc
      | ok ou =>
          cases ou with
          | none =>
              simp [StaticTypeMigration.maybeConvertStaticType, hu, bind,
                Except.bind, pure, Except.pure] at hc
          | some cu =>
              simp [StaticTypeMigration.maybeConvertStaticType, hu, bind,
                Except.bind, pure, Except.pure] at hc
              have hstable := convertStableAux u hnm cu hu
              rw [← hc]
              simp [StaticTypeMigration.maybeConvertStaticType, hstable, bind,
                Except.bind, pure, Except.pure]
  | .constantSized u n => by
      intro hnm t' hc
      simp only [StaticType.noMultiIntersection] at hnm
      cases hu : NewStaticTypeMigration.maybeConvertStaticType u with
      | error p =>
          simp [StaticTypeMigration.maybeConvertStaticType, hu, bind, Except.bind] at hc
      | ok ou =>
          cases ou with
          | none =>
              simp [StaticTypeMigration.maybeConvertStaticType, hu, bind,
                Except.bind, pure, Except.pure] at hc
          | some cu =>
              simp [StaticTypeMigration.maybeConvertStaticType, hu, bind,
                Except.bind, pure, Except.pure] at hc
              have hstable := convertStableAux u hnm cu hu
              rw [← hc]
              simp [StaticTypeMigration.maybeConvertStaticType, hstable, bind,
                Except.bind, pure, Except.pure]
  | .optional u => by
      intro hnm t' hc
      simp only [StaticType.noMultiIntersection] at hnm
      cases hu : NewStaticTypeMigration.maybeConvertStaticType u with
      | error p =>
          simp [StaticTypeMigration.maybeConvertStaticType, hu, bind, Except.bind] at hc
      | ok ou =>
          cases ou with
          | none =>
              simp [StaticTypeMigration.maybeConvertStaticType, hu, bind,
                Except.bind, pure, Except.pure] at hc
          | some cu =>
              simp [StaticTypeMigration.maybeConvertStaticType, hu, bind,
                Except.bind, pure, Except.pure] at hc
              have hstable := convertStableAux u hnm cu hu
              rw [← hc]
              simp [StaticTypeMigration.maybeConvertStaticType, hstable, bind,
                Except.bind, pure, Except.pure]
  | .capability none => by
      intro hnm t' hc
      simp [StaticTypeMigration.maybeConvertStaticType, throw, throwThe,
        MonadExceptOf.throw] at hc
  | .capability (some u) => by
      intro hnm t' hc
      simp only [StaticType.noMultiIntersection] at hnm
      cases hu : NewStaticTypeMigration.maybeConvertStaticType u with
      | error p =>
          simp [StaticTypeMigration.maybeConvertStaticType, hu, bind, Except.bind] at hc
      | ok ou =>
          cases ou with
          | none =>
              simp [StaticTypeMigration.maybeConvertStaticType, hu, bind,
                Except.bind, pure, Except.pure] at hc
          | some cu =>
              simp [StaticTypeMigration.maybeConvertStaticType, hu, bind,
                Except.bind, pure, Except.pure] at hc
              have hstable := convertStableAux u hnm cu hu
              rw [← hc]
              simp [StaticTypeMigration.maybeConvertStaticType, hstable, bind,
                Except.bind, pure, Except.pure]
  | .dictionary kt vt => by
      intro hnm t' hc
      simp only [StaticType.noMultiIntersection, Bool.and_eq_true] at hnm
      cases hk : NewStaticTypeMigration.maybeConvertStaticType kt with
      | error p =>
          simp [StaticTypeMigration.maybeConvertStaticType, hk, bind, Except.bind] at hc
      | ok ok_ =>
          cases hv : NewStaticTypeMigration.maybeConvertStaticType vt with
          | error p =>
              cases ok_ <;>
                simp [StaticTypeMigration.maybeConvertStaticType, hk, hv, bind,
                  Except.bind] at hc
          | ok ov =>
              cases ok_ with
              | none =>
                  cases ov with
                  | none =>
                      simp [StaticTypeMigration.maybeConvertStaticType, hk, hv, bind,
                        Except.bind, pure, Except.pure] at hc
                  | some cv =>
                      simp [StaticTypeMigration.maybeConvertStaticType, hk, hv, bind,
                        Except.bind, pure, Except.pure] at hc
                      have hstable := convertStableAux vt hnm.2 cv hv
                      rw [← hc]
                      simp [StaticTypeMigration.maybeConvertStaticType, hk, hstable,
                        bind, Except.bind, pure, Except.pure]
              | some ck =>
                  cases ov with
                  | none =>
                      simp [StaticTypeMigration.maybeConvertStaticType, hk, hv, bind,
                        Except.bind, pure, Except.pure] at hc
                      have hstable := convertStableAux kt hnm.1 ck hk
                      rw [← hc]
                      simp [StaticTypeMigration.maybeConvertStaticType, hv, hstable,
                        bind, Except.bind, pure, Except.pure]
                  | some cv =>
                      simp [StaticTypeMigration.maybeConvertStaticType, hk, hv, bind,
                        Except.bind, pure, Except.pure] at hc
                      have hsk := convertStableAux kt hnm.1 ck hk
                      have hsv := convertStableAux vt hnm.2 cv hv
                      rw [← hc]
                      simp [StaticTypeMigration.maybeConvertStaticType, hsk, hsv,
                        bind, Except.bind, pure, Except.pure]
  | .reference au u => by
      intro hnm t' hc
      simp only [StaticType.noMultiIntersection] at hnm
      cases hu : NewStaticTypeMigration.maybeConvertStaticType u with
      | error p =>
          simp [StaticTypeMigration.maybeConvertStaticType, hu, bind, Except.bind] at hc
      | ok ou =>
          cases ou with
          | none =>
              simp [StaticTypeMigration.maybeConvertStaticType, hu, bind,
                Except.bind, pure, Except.pure] at hc
          | some cu =>
              have hstable := convertStableAux u hnm cu hu
              by_cases hcond :
                  (cu.beq authAccountReferenceType ||
                    cu.beq unauthorizedAccountReferenceType) = true
              · simp [StaticTypeMigration.maybeConvertStaticType, hu, bind,
                  Except.bind, pure, Except.pure, hcond] at hc
                rw [← hc]
                exact hstable
              · simp [StaticTypeMigration.maybeConvertStaticType, hu, bind,
                  Except.bind, pure, Except.pure, hcond] at hc
                rw [← hc]
                simp [StaticTypeMigration.maybeConvertStaticType, hstable, bind,
                  Except.bind, pure, Except.pure]
  | .intersection ts lt => by
      intro hnm t' hc
      rw [StaticType.noMultiIntersection.eq_def] at hnm
      simp only [Bool.and_eq_true, decide_eq_true_eq] at hnm
      have hlen : ¬ (2 ≤ ts.length) := by omega
      have hloop := convertIntersectionTypes_default ts
      cases lt with
      | none =>
          simp [StaticTypeMigration.maybeConvertStaticType, hloop, bind,
            Except.bind, pure, Except.pure, hlen] at hc
      | some l =>
          have hnml : l.noMultiIntersection = true := by
            simpa using hnm.2
          cases hl : NewStaticTypeMigration.maybeConvertStaticType l with
          | error p =>
              simp [StaticTypeMigration.maybeConvertStaticType, hloop, hl, bind,
                Except.bind] at hc
          | ok ol =>
              cases ol with
              | none =>
                  simp [StaticTypeMigration.maybeConvertStaticType, hloop, hl, bind,
                    Except.bind, pure, Except.pure, hlen] at hc
              | some cl =>
                  simp [StaticTypeMigration.maybeConvertStaticType, hloop, hl, bind,
                    Except.bind, pure, Except.pure] at hc
                  have hstable := convertStableAux l hnml cl hl
                  rw [← hc]
                  simp [StaticTypeMigration.maybeConvertStaticType, hloop, hstable,
                    bind, Except.bind, pure, Except.pure, hlen]

/-- C1 (counterexample): for the two-member intersection
`{I1, I2}` the conversion returns a replacement (the rebuilt, identical
intersection), and converting that replacement again does not return
`nil` — it is force-rebuilt once more — so convert is not idempotent as
claimed. -/
theorem convert_not_idempotent_counterexample :
    NewStaticTypeMigration.maybeConvertStaticType
        (.intersection [⟨none, "I1"⟩, ⟨none, "I2"⟩] none) =
      .ok (some (.intersection [⟨none, "I1"⟩, ⟨none, "I2"⟩] none)) ∧
    ¬ (NewStaticTypeMigration.maybeConvertStaticType
        (.intersection [⟨none, "I1"⟩, ⟨none, "I2"⟩] none) = .ok none) := by
  have h : NewStaticTypeMigration.maybeConvertStaticType
      (.intersection [⟨none, "I1"⟩, ⟨none, "I2"⟩] none) =
      .ok (some (.intersection [⟨none, "I1"⟩, ⟨none, "I2"⟩] none)) := by
    have hloop := convertIntersectionTypes_default [⟨none, "I1"⟩, ⟨none, "I2"⟩]
    simp [StaticTypeMigration.maybeConvertStaticType, hloop, bind, Except.bind,
      pure, Except.pure]
  exact ⟨h, by rw [h]; simp⟩

/-- C1 (amended): for every static type containing no intersection with
two or more interface members, if the converter-free
`maybeConvertStaticType` returns a replacement `t'`, then converting
`t'` returns `nil` (no further change). -/
theorem convert_idempotent_noMultiIntersection :
    ∀ (t t' : StaticType), t.noMultiIntersection = true →
      NewStaticTypeMigration.maybeConvertStaticType t = .ok (some t') →
      NewStaticTypeMigration.maybeConvertStaticType t' = .ok none :=
  fun t t' hnm hc => convertStableAux t hnm t' hc

/-- Witness for the amended C1 at the legacy `AuthAccount` primitive. -/
theorem convert_idempotent_noMultiIntersection_witness :
    (StaticType.primitive .authAccount).noMultiIntersection = true ∧
    NewStaticTypeMigration.maybeConvertStaticType (.primitive .authAccount) =
      .ok (some authAccountReferenceType) ∧
    NewStaticTypeMigration.maybeConvertStaticType authAccountReferenceType =
      .ok none := by
  have h1 : (StaticType.primitive .authAccount).noMultiIntersection = true := by
    rw [StaticType.noMultiIntersection.eq_def]
  have h2 : NewStaticTypeMigration.maybeConvertStaticType (.primitive .authAccount) =
      .ok (some authAccountReferenceType) := by
    rw [maybeConvert_primitive_eq]
    simp [convertPrimitive]
  exact ⟨h1, h2, convert_idempotent_noMultiIntersection _ _ h1 h2⟩

/-- C8: a per-leaf migration error is recoverable: it is reported via
`Reporter.Error` with the full address/domain/key/migration-name
context, the working value offered to the remaining migrations is the
original (unmigrated) one, and the traversal continues both with the
remaining migrations and with the remaining leaves of the container. -/
theorem leaf_error_recoverable :
    ∀ (mig : ValueMigration) (rest : List ValueMigration) (addr : Address)
      (dom : PathDomain) (key : String) (v : Value) (e : String)
      (elems : List Value),
      mig.migrate addr dom key v = .error e →
      migrateLeafWithErrors (mig :: rest) addr dom key v =
        ((migrateLeafWithErrors rest addr dom key v).1,
         (migrateLeafWithErrors rest addr dom key v).2.1,
         .errorReport addr dom key mig.name e ::
           (migrateLeafWithErrors rest addr dom key v).2.2) ∧
      migrateArrayLeavesWithErrors (mig :: rest) addr dom key (v :: elems) =
        (((migrateLeafWithErrors (mig :: rest) addr dom key v).2.1.getD
            (migrateLeafWithErrors (mig :: rest) addr dom key v).1) ::
           (migrateArrayLeavesWithErrors (mig :: rest) addr dom key elems).1,
         (migrateLeafWithErrors (mig :: rest) addr dom key v).2.2 ++
           (migrateArrayLeavesWithErrors (mig :: rest) addr dom key elems).2) := by
  intro mig rest addr dom key v e elems herr
  constructor
  · match h' : migrateLeafWithErrors rest addr dom key v with
    | (v', s, evs) => simp [migrateLeafWithErrors, herr, h']
  · match h1 : migrateLeafWithErrors (mig :: rest) addr dom key v,
      h2 : migrateArrayLeavesWithErrors (mig :: rest) addr dom key elems with
    | (v', s, evs), (elems', evs2) =>
        simp [migrateArrayLeavesWithErrors, h1, h2]

/-- Witness for C8: a single always-failing migration on an integer
leaf, inside a two-element array. -/
theorem leaf_error_recoverable_witness :
    (ValueMigration.migrate ⟨"F", fun _ _ _ _ => .error "boom"⟩ 5 .storage "k"
        (.intValue 0) = .error "boom") ∧
    migrateLeafWithErrors [⟨"F", fun _ _ _ _ => .error "boom"⟩] 5 .storage "k"
        (.intValue 0) =
      (.intValue 0, none, [.errorReport 5 .storage "k" "F" "boom"]) ∧
    migrateArrayLeavesWithErrors [⟨"F", fun _ _ _ _ => .error "boom"⟩] 5 .storage "k"
        [.intValue 0, .intValue 1] =
      ([.intValue 0, .intValue 1],
       [.errorReport 5 .storage "k" "F" "boom",
        .errorReport 5 .storage "k" "F" "boom"]) := by
  have h := leaf_error_recoverable ⟨"F", fun _ _ _ _ => .error "boom"⟩ [] 5 .storage "k"
    (.intValue 0) "boom" [.intValue 1] rfl
  refine ⟨rfl, ?_, ?_⟩
  · simpa [migrateLeafWithErrors] using h.1
  · simpa [migrateLeafWithErrors, migrateArrayLeavesWithErrors] using h.2

theorem staticTypeBeq_refl : ∀ t : StaticType, t.beq t = true
  | .composite a => by simp [StaticType.beq]
  | .interfaceT a => by simp [StaticType.beq]
  | .variableSized a => by simp [StaticType.beq, staticTypeBeq_refl a]
  | .constantSized a n => by simp [StaticType.beq, staticTypeBeq_refl a]
  | .dictionary k v => by
      simp [StaticType.beq, staticTypeBeq_refl k, staticTypeBeq_refl v]
  | .optional a => by simp [StaticType.beq, staticTypeBeq_refl a]
  | .intersection ts lt => by
      cases lt with
      | none => simp [StaticType.beq]
      | some l => simp [StaticType.beq, staticTypeBeq_refl l]
  | .reference au a => by simp [StaticType.beq, staticTypeBeq_refl a]
  | .capability bt => by
      cases bt with
      | none => simp [StaticType.beq]
      | some b => simp [StaticType.beq, staticTypeBeq_refl b]
  | .function s => by simp [StaticType.beq]
  | .primitive k => by simp [StaticType.beq]
  | .dummy k => by simp [StaticType.beq]

mutual

theorem valueBeq_refl : ∀ v : Value, Value.beq v v = true
  | .someValue a => by simp [Value.beq, valueBeq_refl a]
  | .arrayValue as => by simp [Value.beq, Value.beqList_refl as]
  | .compositeValue fs => by simp [Value.beq, Value.beqFields_refl fs]
  | .dictionaryValue es => by simp [Value.beq, Value.beqEntries_refl es]
  | .typeValue t => by simp [Value.beq, staticTypeBeq_refl t]
  | .capabilityValue i a b => by simp [Value.beq, staticTypeBeq_refl b]
  | .pathCapabilityValue b p a => by simp [Value.beq, staticTypeBeq_refl b]
  | .pathLinkValue t p => by simp [Value.beq, staticTypeBeq_refl t]
  | .accountCapabilityControllerValue b i => by
      simp [Value.beq, staticTypeBeq_refl b]
  | .storageCapabilityControllerValue b i p => by
      simp [Value.beq, staticTypeBeq_refl b]
  | .intValue n => by simp [Value.beq]
  | .stringValue s => by simp [Value.beq]

theorem Value.beqList_refl : ∀ l : List Value, Value.beqList l l = true
  | [] => by simp [Value.beqList]
  | a :: as => by simp [Value.beqList, valueBeq_refl a, Value.beqList_refl as]

theorem Value.beqFields_refl : ∀ l : List (String × Value), Value.beqFields l l = true
  | [] => by simp [Value.beqFields]
  | (n, v) :: fs => by simp [Value.beqFields, valueBeq_refl v, Value.beqFields_refl fs]

theorem Value.beqEntries_refl : ∀ l : List (Value × Value), Value.beqEntries l l = true
  | [] => by simp [Value.beqEntries]
  | (k, v) :: es => by
      simp [Value.beqEntries, valueBeq_refl k, valueBeq_refl v,
        Value.beqEntries_refl es]

end

theorem dictGet_none (l : List (Value × Value)) (k : Value)
    (h : ∀ p ∈ l, p.1.beq k = false) : dictGet l k = none := by
  induction l with
  | nil => rfl
  | cons p rest ih =>
      obtain ⟨k', v⟩ := p
      have hk' := h (k', v) (by simp)
      simp only at hk'
      simp [dictGet, hk']
      exact ih fun q hq => h q (by simp [hq])

theorem dictGet_append_right (l1 l2 : List (Value × Value)) (k : Value)
    (h : ∀ p ∈ l1, p.1.beq k = false) :
    dictGet (l1 ++ l2) k = dictGet l2 k := by
  induction l1 with
  | nil => rfl
  | cons p rest ih =>
      obtain ⟨k', v⟩ := p
      have hk' := h (k', v) (by simp)
      simp only at hk'
      simp [dictGet, hk']
      exact ih fun q hq => h q (by simp [hq])

theorem dictGet_append_left (l1 l2 : List (Value × Value)) (k : Value) (v : Value)
    (h : dictGet l1 k = some v) : dictGet (l1 ++ l2) k = some v := by
  induction l1 with
  | nil => simp [dictGet] at h
  | cons p rest ih =>
      obtain ⟨k', v'⟩ := p
      by_cases hk : k'.beq k = true
      · simp [dictGet, hk] at h ⊢
        exact h
      · simp [dictGet, Bool.of_not_eq_true hk] at h ⊢
        exact ih h

theorem dictSet_of_get_some (l : List (Value × Value)) (k v : Value)
    (h : dictGet l k = some v) : dictSet l k v = l := by
  induction l with
  | nil => simp [dictGet] at h
  | cons p rest ih =>
      obtain ⟨k', v'⟩ := p
      by_cases hk : k'.beq k = true
      · simp [dictGet, hk] at h
        simp [dictSet, hk, h]
      · simp [dictGet, Bool.of_not_eq_true hk] at h
        simp [dictSet, Bool.of_not_eq_true hk, ih h]

theorem dictSet_append_fresh (l : List (Value × Value)) (k v : Value)
    (h : ∀ p ∈ l, p.1.beq k = false) : dictSet l k v = l ++ [(k, v)] := by
  induction l with
  | nil => rfl
  | cons p rest ih =>
      obtain ⟨k', v'⟩ := p
      have hk' := h (k', v') (by simp)
      simp only at hk'
      simp [dictSet, hk']
      exact ih fun q hq => h q (by simp [hq])

theorem dictRemove_middle (es1 es2 : List (Value × Value)) (k1 : Value) (v1 : Value)
    (h : ∀ p ∈ es1, p.1.beq k1 = false) :
    dictRemove (es1 ++ (k1, v1) :: es2) k1 = es1 ++ es2 := by
  induction es1 with
  | nil => simp [dictRemove, valueBeq_refl k1]
  | cons p rest ih =>
      obtain ⟨k', v'⟩ := p
      have hk' := h (k', v') (by simp)
      simp only at hk'
      simp [dictRemove, hk']
      exact ih fun q hq => h q (by simp [hq])

theorem dictGet_self_of_pairwise :
    ∀ (l : List (Value × Value)) (p : Value × Value), p ∈ l →
      l.Pairwise (fun a b => a.1.beq b.1 = false ∧ b.1.beq a.1 = false) →
      dictGet l p.1 = some p.2 := by
  intro l
  induction l with
  | nil => intro p hp; simp at hp
  | cons q rest ih =>
      intro p hp hpw
      rw [List.pairwise_cons] at hpw
      rcases List.mem_cons.1 hp with h | h
      · subst h
        simp [dictGet, valueBeq_refl p.1]
      · have hq := (hpw.1 p h).1
        simp [dictGet, hq]
        exact ih p h hpw.2

theorem migrateDictEntries_skip_all (migs : List EngineMigration) (addr : Address)
    (dom : PathDomain) (key : String) :
    ∀ (snap state : List (Value × Value)),
      (∀ p ∈ snap, untouchedEntry migs addr dom key p) →
      (∀ p ∈ snap, dictGet state p.1 = some p.2) →
      ∃ ra, migrateDictEntries migs addr dom key snap state = .ok (state, ra) := by
  intro snap
  induction snap with
  | nil =>
      intro state _ _
      exact ⟨[], by simp [migrateDictEntries, pure, Except.pure]⟩
  | cons p rest ih =>
      intro state hU hP
      obtain ⟨k, v⟩ := p
      have hg : dictGet state k = some v := hP (k, v) (by simp)
      obtain ⟨⟨rk, hk⟩, ⟨rv, hv⟩⟩ := hU (k, v) (by simp)
      simp only at hk hv
      obtain ⟨ra', hra'⟩ := ih state (fun q hq => hU q (by simp [hq]))
        (fun q hq => hP q (by simp [hq]))
      refine ⟨rk ++ rv ++ ra', ?_⟩
      simp [migrateDictEntries, hg, hk, hv, dictSet_of_get_some state k v hg, hra',
        bind, Except.bind, pure, Except.pure]

theorem migrateDictEntries_append_skip (migs : List EngineMigration) (addr : Address)
    (dom : PathDomain) (key : String) :
    ∀ (snap suffix state : List (Value × Value)),
      (∀ p ∈ snap, untouchedEntry migs addr dom key p) →
      (∀ p ∈ snap, dictGet state p.1 = some p.2) →
      ∃ ra, migrateDictEntries migs addr dom key (snap ++ suffix) state =
        (migrateDictEntries migs addr dom key suffix state).map
          (fun sr => (sr.1, ra ++ sr.2)) := by
  intro snap
  induction snap with
  | nil =>
      intro suffix state _ _
      refine ⟨[], ?_⟩
      rw [List.nil_append]
      cases migrateDictEntries migs addr dom key suffix state <;> simp [Except.map]
  | cons p rest ih =>
      intro suffix state hU hP
      obtain ⟨k, v⟩ := p
      have hg : dictGet state k = some v := hP (k, v) (by simp)
      obtain ⟨⟨rk, hk⟩, ⟨rv, hv⟩⟩ := hU (k, v) (by simp)
      simp only at hk hv
      obtain ⟨ra', hra'⟩ := ih suffix state (fun q hq => hU q (by simp [hq]))
        (fun q hq => hP q (by simp [hq]))
      refine ⟨rk ++ rv ++ ra', ?_⟩
      cases hres : migrateDictEntries migs addr dom key suffix state with
      | error pa =>
          rw [hres] at hra'
          simp [migrateDictEntries, hg, hk, hv, dictSet_of_get_some state k v hg,
            hra', bind, Except.bind, pure, Except.pure, Except.map]
      | ok sr =>
          rw [hres] at hra'
          simp only [Except.map] at hra'
          simp [migrateDictEntries, hg, hk, hv, dictSet_of_get_some state k v hg,
            hra', bind, Except.bind, pure, Except.pure, Except.map]

/-- C5: for a dictionary containing `k1 ↦ v1`, if the traversal migrates
`k1` to a fresh key `k2` and leaves `v1` (and every other entry)
unchanged, the dictionary afterwards contains `k2` mapping to `v1`
wrapped as present (`someValue`) and contains no entry for `k1`. -/
theorem dictionary_key_relocation :
    ∀ (migs : List EngineMigration) (addr : Address) (dom : PathDomain) (key : String)
      (es1 es2 : List (Value × Value)) (k1 v1 k2 k1' : Value)
      (rk1 rv1 : List Report),
      migrateNestedValue migs addr dom key k1 = .ok (k1', some k2, rk1) →
      migrateNestedValue migs addr dom key v1 = .ok (v1, none, rv1) →
      (∀ p ∈ es1 ++ es2, untouchedEntry migs addr dom key p) →
      (es1 ++ (k1, v1) :: es2).Pairwise
        (fun a b => a.1.beq b.1 = false ∧ b.1.beq a.1 = false) →
      (∀ p ∈ es1 ++ (k1, v1) :: es2, p.1.beq k2 = false ∧ k2.beq p.1 = false) →
      ∃ r, migrateNestedValue migs addr dom key
          (.dictionaryValue (es1 ++ (k1, v1) :: es2)) =
          .ok (.dictionaryValue (es1 ++ es2 ++ [(k2, .someValue v1)]), none, r) ∧
        dictGet (es1 ++ es2 ++ [(k2, .someValue v1)]) k2 = some (.someValue v1) ∧
        dictGet (es1 ++ es2 ++ [(k2, .someValue v1)]) k1 = none := by
  intro migs addr dom key es1 es2 k1 v1 k2 k1' rk1 rv1 hk1 hv1 hU hpw hfresh
  rw [List.pairwise_append] at hpw
  obtain ⟨hpw1, hpw2, hcross⟩ := hpw
  rw [List.pairwise_cons] at hpw2
  obtain ⟨hk1rel, hpw2'⟩ := hpw2
  have hes1k1 : ∀ p ∈ es1, p.1.beq k1 = false := fun p hp =>
    (hcross p hp (k1, v1) (by simp)).1
  have hg1 : dictGet (es1 ++ (k1, v1) :: es2) k1 = some v1 := by
    rw [dictGet_append_right _ _ _ hes1k1]
    simp [dictGet, valueBeq_refl k1]
  have hrem : dictRemove (es1 ++ (k1, v1) :: es2) k1 = es1 ++ es2 :=
    dictRemove_middle es1 es2 k1 v1 hes1k1
  have hfresh12 : ∀ p ∈ es1 ++ es2, p.1.beq k2 = false := by
    intro p hp
    rcases List.mem_append.1 hp with h | h
    · exact (hfresh p (List.mem_append.2 (Or.inl h))).1
    · exact (hfresh p (List.mem_append.2 (Or.inr (List.mem_cons_of_mem _ h)))).1
  have hset : dictSet (es1 ++ es2) k2 (.someValue v1) =
      es1 ++ es2 ++ [(k2, .someValue v1)] :=
    dictSet_append_fresh _ _ _ hfresh12
  have hP3 : ∀ p ∈ es2,
      dictGet (es1 ++ es2 ++ [(k2, .someValue v1)]) p.1 = some p.2 := by
    intro p hp
    have hes1p : ∀ q ∈ es1, q.1.beq p.1 = false := fun q hq =>
      (hcross q hq p (List.mem_cons_of_mem _ hp)).1
    rw [List.append_assoc, dictGet_append_right _ _ _ hes1p]
    exact dictGet_append_left _ _ _ _ (dictGet_self_of_pairwise es2 p hp hpw2')
  obtain ⟨ra3, h3⟩ := migrateDictEntries_skip_all migs addr dom key es2
    (es1 ++ es2 ++ [(k2, .someValue v1)])
    (fun p hp => hU p (List.mem_append.2 (Or.inr hp))) hP3
  have h3' : migrateDictEntries migs addr dom key es2
      (es1 ++ (es2 ++ [(k2, .someValue v1)])) =
      .ok (es1 ++ (es2 ++ [(k2, .someValue v1)]), ra3) := by
    rw [← List.append_assoc]
    exact h3
  have hsuffix : migrateDictEntries migs addr dom key ((k1, v1) :: es2)
      (es1 ++ (k1, v1) :: es2) =
      .ok (es1 ++ es2 ++ [(k2, .someValue v1)], rk1 ++ rv1 ++ ra3) := by
    simp [migrateDictEntries, hg1, hk1, hv1, hrem, hset, h3', bind, Except.bind,
      pure, Except.pure]
  have hP1 : ∀ p ∈ es1, dictGet (es1 ++ (k1, v1) :: es2) p.1 = some p.2 := by
    intro p hp
    apply dictGet_self_of_pairwise _ p (List.mem_append.2 (Or.inl hp))
    rw [List.pairwise_append]
    exact ⟨hpw1, List.pairwise_cons.2 ⟨hk1rel, hpw2'⟩, hcross⟩
  obtain ⟨ra1, h1⟩ := migrateDictEntries_append_skip migs addr dom key es1
    ((k1, v1) :: es2) (es1 ++ (k1, v1) :: es2)
    (fun p hp => hU p (List.mem_append.2 (Or.inl hp))) hP1
  rw [hsuffix] at h1
  simp only [Except.map] at h1
  refine ⟨ra1 ++ (rk1 ++ rv1 ++ ra3), ?_, ?_, ?_⟩
  · simp [migrateNestedValue, h1, bind, Except.bind, pure, Except.pure]
  · rw [dictGet_append_right _ _ _ hfresh12]
    simp [dictGet, valueBeq_refl k2]
  · apply dictGet_none
    intro p hp
    rcases List.mem_append.1 hp with h | h
    · rcases List.mem_append.1 h with h' | h'
      · exact hes1k1 p h'
      · exact (hk1rel p h').2
    · have : p = (k2, Value.someValue v1) := by simpa using h
      subst this
      exact (hfresh (k1, v1)
        (List.mem_append.2 (Or.inr (List.mem_cons_self _ _)))).2

/-- Witness for C5: a singleton dictionary whose integer key `1` is
relocated to `2` by a concrete migration. -/
theorem dictionary_key_relocation_witness :
    ∃ r, migrateNestedValue
        [⟨"K", fun _ v => match v with
            | .intValue 1 => some (.intValue 2)
            | _ => none⟩] 5 .storage "foo"
        (.dictionaryValue [(.intValue 1, .intValue 10)]) =
      .ok (.dictionaryValue [(.intValue 2, .someValue (.intValue 10))], none, r) ∧
      dictGet [(.intValue 2, .someValue (.intValue 10))] (.intValue 2) =
        some (.someValue (.intValue 10)) ∧
      dictGet [(.intValue 2, .someValue (.intValue 10))] (.intValue 1) = none := by
  have h := dictionary_key_relocation
    [⟨"K", fun _ v => match v with
        | .intValue 1 => some (.intValue 2)
        | _ => none⟩] 5 .storage "foo" [] [] (.intValue 1) (.intValue 10)
    (.intValue 2) (.intValue 1) [⟨5, .storage, "foo", "K"⟩] []
    (by simp [migrateNestedValue, migrateLeafLoop, pure, Except.pure])
    (by simp [migrateNestedValue, migrateLeafLoop, pure, Except.pure])
    (by simp)
    (by simp)
    (by simp [Value.beq])
  simpa using h

end Cadence
